import Mathlib

/-!
Verification development for the Incial front end (calendar and meeting
tracker pages). The TypeScript pages are shallowly embedded: React state
updates become explicit state passing, JS Date values for strings without a
timezone suffix become a record of local civil fields together with an
epoch derived from a viewer timezone offset (minutes east of UTC), and the
fallible Date parser becomes an Option valued function. Milliseconds are
modelled as whole seconds since every string handled by these pages carries
at most second precision. The JS NaN propagation for malformed date strings
is modelled by the literal NaN date string the page would render and a zero
sort key.
-/

/-! ## Proleptic Gregorian calendar arithmetic (JS Date local getters) -/

/-- Leap year test, as the Gregorian rules used by JS Date. -/
def isLeap (y : Nat) : Bool :=
  (y % 4 == 0 && y % 100 != 0) || y % 400 == 0

/-- Number of days in month mo (1 to 12) of year y; 0 for out of range months. -/
def daysInMonth (y mo : Nat) : Nat :=
  match mo with
  | 1 => 31
  | 2 => if isLeap y then 29 else 28
  | 3 => 31
  | 4 => 30
  | 5 => 31
  | 6 => 30
  | 7 => 31
  | 8 => 31
  | 9 => 30
  | 10 => 31
  | 11 => 30
  | 12 => 31
  | _ => 0

/-- Number of days in year y. -/
def daysInYear (y : Nat) : Nat :=
  if isLeap y then 366 else 365

/-- Days in all years before year y, counting from year 0. -/
def daysBeforeYear : Nat → Nat
  | 0 => 0
  | y + 1 => daysBeforeYear y + daysInYear y

/-- Days in year y that precede month mo, as the usual cumulative table. -/
def daysBeforeMonth (y : Nat) (mo : Nat) : Nat :=
  let f := if isLeap y then 1 else 0
  match mo with
  | 1 => 0
  | 2 => 31
  | 3 => 59 + f
  | 4 => 90 + f
  | 5 => 120 + f
  | 6 => 151 + f
  | 7 => 181 + f
  | 8 => 212 + f
  | 9 => 243 + f
  | 10 => 273 + f
  | 11 => 304 + f
  | 12 => 334 + f
  | _ => 0

/-- Linear day index of a civil date, counting day 0 as year 0 January 1. -/
def dayNumber (y mo d : Nat) : Nat :=
  daysBeforeYear y + daysBeforeMonth y mo + (d - 1)

/-- Validity of a civil date triple. -/
def isValidDate (y mo d : Nat) : Bool :=
  1 ≤ mo && mo ≤ 12 && 1 ≤ d && d ≤ daysInMonth y mo

/-- Successor civil date of a valid civil date. -/
def nextDay (y mo d : Nat) : Nat × Nat × Nat :=
  if d < daysInMonth y mo then (y, mo, d + 1)
  else if mo < 12 then (y, mo + 1, 1)
  else (y + 1, 1, 1)

/-! ## Local date times and instants -/

/-- Local civil date time carried by a JS Date built from a string without a
timezone suffix; getters of such a Date return exactly these fields. -/
structure LocalDT where
  year : Nat
  month : Nat
  day : Nat
  hour : Nat
  minute : Nat
  second : Nat
deriving DecidableEq, Repr

/-- Seconds from year 0 January 1 midnight to the local date time, on the
local clock. -/
def localSeconds (dt : LocalDT) : Nat :=
  dayNumber dt.year dt.month dt.day * 86400 +
    dt.hour * 3600 + dt.minute * 60 + dt.second

/-- Epoch instant (seconds) of a local date time for a viewer whose timezone
offset is tz minutes east of UTC; this is the getTime value of the JS Date,
up to the common origin shift. -/
def epochOf (tz : Int) (dt : LocalDT) : Int :=
  (localSeconds dt : Int) - tz * 60

/-! ## String helpers used by the pages -/

/-- padStart of a two digit field, as String(n).padStart(2, 0). -/
def pad2 (n : Nat) : String :=
  if n < 10 then "0" ++ toString n else toString n

/-- Local date key, the grouping string built everywhere in the page as
year dash padded month dash padded day. -/
def fmtDate (y mo d : Nat) : String :=
  toString y ++ "-" ++ pad2 mo ++ "-" ++ pad2 d

/-- Rendering of an optional record id inside a template literal; a missing
id renders as the JS undefined string. -/
def idStr : Option Nat → String
  | some n => toString n
  | none => "undefined"

/-- Split of a character list on a single character separator, with the JS
split semantics: the number of parts is one more than the number of
separator occurrences, and parts may be empty. -/
def splitOnChar (sep : Char) : List Char → List (List Char)
  | [] => [[]]
  | c :: rest =>
      if c = sep then [] :: splitOnChar sep rest
      else
        match splitOnChar sep rest with
        | [] => [[c]]
        | part :: parts => (c :: part) :: parts

/-- Value of one decimal digit character, read off the code point. -/
def digitVal (c : Char) : Option Nat :=
  let n := c.toNat
  if 48 ≤ n && n ≤ 57 then some (n - 48) else none

/-- Decimal reading of a digit run, with an accumulator. -/
def natOfDigitsAux (acc : Nat) : List Char → Option Nat
  | [] => some acc
  | c :: cs =>
      match digitVal c with
      | some v => natOfDigitsAux (acc * 10 + v) cs
      | none => none

/-- Decimal reading of a nonempty digit run, the JS Number conversion on
the digit only strings these pages produce. -/
def natOfDigits : List Char → Option Nat
  | [] => none
  | cs => natOfDigitsAux 0 cs

/-- Strict two digit decimal field. -/
def parse2 (s : List Char) : Option Nat :=
  if s.length == 2 then natOfDigits s else none

/-- Strict four digit decimal field. -/
def parse4 (s : List Char) : Option Nat :=
  if s.length == 4 then natOfDigits s else none

/-- Field assembly for the ISO local date time parser: all fields must be in
range for the result to be a real date, otherwise the JS Date is invalid. -/
def mkLocalDT (ys ms ds hs mins ss : List Char) : Option LocalDT :=
  match parse4 ys, parse2 ms, parse2 ds, parse2 hs, parse2 mins, parse2 ss with
  | some y, some mo, some d, some h, some mi, some s =>
      if isValidDate y mo d && h ≤ 23 && mi ≤ 59 && s ≤ 59 then
        some ⟨y, mo, d, h, mi, s⟩
      else none
  | _, _, _, _, _, _ => none

/-- Parser for the date time strings this application stores and produces:
an ISO local date, letter T, then hours and minutes and optional seconds,
with no timezone suffix. JS interprets such strings on the local clock; the
forms with a timezone suffix or without a time part are never produced by
these pages and are out of the modelled subset. -/
def parseDateTime (s : String) : Option LocalDT :=
  match splitOnChar 'T' s.toList with
  | [ds, ts] =>
      match splitOnChar '-' ds, splitOnChar ':' ts with
      | [ys, ms, dss], [hs, mins] => mkLocalDT ys ms dss hs mins ['0', '0']
      | [ys, ms, dss], [hs, mins, ss] => mkLocalDT ys ms dss hs mins ss
      | _, _ => none
  | _ => none

/-- Model of splitting a day key on dashes and mapping Number over the
parts, as the drop handler and the quick create handler do. -/
def parseYMD (s : String) : Option (Nat × Nat × Nat) :=
  match splitOnChar '-' s.toList with
  | [ys, ms, dss] =>
      match natOfDigits ys, natOfDigits ms, natOfDigits dss with
      | some y, some mo, some d => some (y, mo, d)
      | _, _, _ => none
  | _ => none

/-! ## Data model (types.ts shapes used by the pages) -/

namespace Incial

/-- Task record as used by the pages; the record id is absent on drafts. -/
structure Task where
  id : Option Nat
  title : String
  status : String
  priority : String
  assignedTo : String
  dueDate : String
  companyId : Option Nat
  lastUpdatedBy : Option String
  lastUpdatedAt : Option String
deriving DecidableEq, Repr

/-- Meeting record as used by the pages. -/
structure Meeting where
  id : Option Nat
  title : String
  status : String
  dateTime : String
  meetingLink : Option String
  lastUpdatedBy : Option String
  lastUpdatedAt : Option String
deriving DecidableEq, Repr

/-- Discriminator of a calendar item. -/
inductive ItemType where
  | task
  | meeting
deriving DecidableEq, Repr

/-- Source record embedded in a calendar item. -/
inductive ItemData where
  | task (t : Task)
  | meeting (m : Meeting)
deriving DecidableEq, Repr

/-- Derived display item of the universal calendar page. -/
structure CalendarItem where
  id : String
  dateStr : String
  sortTime : Int
  title : String
  type : ItemType
  data : ItemData
  status : String
  priority : Option String
deriving DecidableEq, Repr

end Incial

open Incial

namespace UniversalCalendar

/-- Status filter of the task loop in fetchData. -/
def taskKeep (t : Task) : Bool :=
  t.status != "Completed" && t.status != "Done"

/-- Calendar item pushed for a kept task in fetchData: grouping key is the
due date string verbatim and the sort key is the constant 0. -/
def taskToItem (t : Task) : CalendarItem :=
  { id := "task-" ++ idStr t.id
    dateStr := t.dueDate
    sortTime := 0
    title := t.title
    type := ItemType.task
    data := ItemData.task t
    status := t.status
    priority := some t.priority }

/-- Calendar item pushed for a meeting in fetchData: the date time string is
parsed as a JS Date, the grouping key is rebuilt from the local getters with
padded month and day, and the sort key is getTime. A malformed string gives
the NaN renderings of the page. -/
def meetingToItem (tz : Int) (m : Meeting) : CalendarItem :=
  match parseDateTime m.dateTime with
  | some dt =>
      { id := "meeting-" ++ idStr m.id
        dateStr := fmtDate dt.year dt.month dt.day
        sortTime := epochOf tz dt
        title := m.title
        type := ItemType.meeting
        data := ItemData.meeting m
        status := m.status
        priority := none }
  | none =>
      { id := "meeting-" ++ idStr m.id
        dateStr := "NaN-NaN-NaN"
        sortTime := 0
        title := m.title
        type := ItemType.meeting
        data := ItemData.meeting m
        status := m.status
        priority := none }

/-- The item list committed by fetchData: a forEach push over tasks guarded
by the status filter, then a forEach push over meetings. -/
def fetchDataItems (tz : Int) (tasks : List Task) (meetings : List Meeting) :
    List CalendarItem :=
  let afterTasks :=
    tasks.foldl (fun acc t => if taskKeep t then acc ++ [taskToItem t] else acc) []
  meetings.foldl (fun acc m => acc ++ [meetingToItem tz m]) afterTasks

/-! ### Month statistics -/

/-- Header statistics record. -/
structure MonthlyStats where
  total : Nat
  tasks : Nat
  meetings : Nat
deriving DecidableEq, Repr

/-- Year and padded month key of the displayed month, as built from the
current date getters. -/
def monthKey (y mo : Nat) : String :=
  toString y ++ "-" ++ pad2 mo

/-- The monthlyStats memo: filter the items whose grouping key starts with
the displayed year month key, then count the whole list and each type. -/
def monthlyStats (items : List CalendarItem) (y mo : Nat) : MonthlyStats :=
  let monthItems := items.filter (fun i => i.dateStr.startsWith (monthKey y mo))
  { total := monthItems.length
    tasks := (monthItems.filter (fun i => i.type == ItemType.task)).length
    meetings := (monthItems.filter (fun i => i.type == ItemType.meeting)).length }

/-! ### Month grid cells -/

/-- Type toggle test of a cell item, from the filter inside renderCells. -/
def typeMatches (showTasks showMeetings : Bool) (it : CalendarItem) : Bool :=
  (it.type == ItemType.task && showTasks) || (it.type == ItemType.meeting && showMeetings)

/-- Comparator passed to the JS sort call, ascending by sort key; modern JS
array sort is stable, modelled by a stable merge sort. -/
def bySortTime (a b : CalendarItem) : Bool :=
  a.sortTime ≤ b.sortTime

/-- The day items of one grid cell: items whose grouping key equals the cell
key and whose type passes the toggles, sorted ascending by sort key. -/
def dayCellItems (items : List CalendarItem) (showTasks showMeetings : Bool)
    (dateStr : String) : List CalendarItem :=
  (items.filter (fun it => it.dateStr == dateStr && typeMatches showTasks showMeetings it)).mergeSort
    bySortTime

/-- The items actually rendered in a cell, the slice of the first four. -/
def renderedCellItems (items : List CalendarItem) (showTasks showMeetings : Bool)
    (dateStr : String) : List CalendarItem :=
  (dayCellItems items showTasks showMeetings dateStr).take 4

/-- The plus N more indicator of a cell, shown when more than four items
exist, carrying the leftover count. -/
def moreCount (items : List CalendarItem) (showTasks showMeetings : Bool)
    (dateStr : String) : Option Nat :=
  if 4 < (dayCellItems items showTasks showMeetings dateStr).length then
    some ((dayCellItems items showTasks showMeetings dateStr).length - 4)
  else none

/-! ### Drag and drop -/

/-- API write issued by the drop handler. -/
inductive DropCall where
  | taskUpdate (id : Option Nat) (dueDate : String)
  | meetingUpdate (id : Option Nat) (dateTime : String)
deriving DecidableEq, Repr

/-- Observable outcome of a drop: resulting local item list, the API call
issued if any, whether fetchData was triggered, and toasts shown. -/
structure DropResult where
  items : List CalendarItem
  call : Option DropCall
  refetch : Bool
  toasts : List String
deriving DecidableEq, Repr

/-- Record id of the source record inside an item. -/
def itemDataId : ItemData → Option Nat
  | ItemData.task t => t.id
  | ItemData.meeting m => m.id

/-- Date time string read through the Meeting cast in the drop handler; on a
task the cast reads the absent field, never reached when the type tag is a
meeting. -/
def itemDataDateTime : ItemData → String
  | ItemData.meeting m => m.dateTime
  | ItemData.task _ => ""

/-- Date time string sent when a meeting is dropped on a day key: parse the
old string, split the day key on dashes, build a JS Date from the target
civil fields with the old hour and minute, and print it by padded field
concatenation with zero seconds. The JS Date constructor normalization of
out of range fields is outside the model; grid day keys are always valid,
and an unparsable input is mapped to the invalid marker. -/
def dropMeetingIso (dateStr : String) (oldDateTime : String) : String :=
  match parseDateTime oldDateTime, parseYMD dateStr with
  | some old, some (y, mo, d) =>
      if isValidDate y mo d then
        fmtDate y mo d ++ "T" ++ pad2 old.hour ++ ":" ++ pad2 old.minute ++ ":00"
      else "Invalid Date"
  | _, _ => "Invalid Date"

/-- The drop handler: no dragged item or a drop on the own day key returns
immediately; otherwise the item moves optimistically, the matching update
call is issued, and a failing call shows the failure toast and refetches. -/
def handleDrop (items : List CalendarItem) (dragged : Option CalendarItem)
    (dateStr : String) (apiFails : Bool) : DropResult :=
  match dragged with
  | none => { items := items, call := none, refetch := false, toasts := [] }
  | some it =>
      if it.dateStr = dateStr then
        { items := items, call := none, refetch := false, toasts := [] }
      else
        let newItem := { it with dateStr := dateStr }
        let optimistic := items.map (fun i => if i.id = newItem.id then newItem else i)
        let call :=
          match newItem.type with
          | ItemType.task => DropCall.taskUpdate (itemDataId newItem.data) dateStr
          | ItemType.meeting =>
              DropCall.meetingUpdate (itemDataId newItem.data)
                (dropMeetingIso dateStr (itemDataDateTime newItem.data))
        if apiFails then
          { items := optimistic, call := some call, refetch := true
            toasts := ["Failed to move item"] }
        else
          { items := optimistic, call := some call, refetch := false
            toasts := [(match newItem.type with
              | ItemType.task => "Task moved to " ++ dateStr
              | ItemType.meeting => "Meeting rescheduled to " ++ dateStr)] }

/-! ### Save handlers of the calendar page -/

/-- Branch taken by a save handler. -/
inductive SaveCall where
  | create
  | update (id : Nat)
deriving DecidableEq, Repr

/-- Observable outcome of a save handler. -/
structure SaveResult where
  call : SaveCall
  refetch : Bool
  toasts : List String
deriving DecidableEq, Repr

/-- JS truthiness of an optional numeric record id: present and nonzero. -/
def truthyId : Option Nat → Bool
  | some n => n != 0
  | none => false

/-- The task save handler of the calendar page: update when the edited task
and its id are truthy, create otherwise; a success shows a toast and then
refetches, a failure shows the failure toast and does not refetch. -/
def handleTaskSave (editingTask : Option Task) (apiFails : Bool) : SaveResult :=
  let call :=
    match editingTask with
    | some t => if truthyId t.id then SaveCall.update (t.id.getD 0) else SaveCall.create
    | none => SaveCall.create
  if apiFails then
    { call := call, refetch := false, toasts := ["Operation failed"] }
  else
    { call := call, refetch := true
      toasts := [(match call with
        | SaveCall.update _ => "Task updated"
        | SaveCall.create => "Task created")] }

/-- The meeting save handler of the calendar page, the same shape as the
task save handler. -/
def handleMeetingSave (editingMeeting : Option Meeting) (apiFails : Bool) : SaveResult :=
  let call :=
    match editingMeeting with
    | some m => if truthyId m.id then SaveCall.update (m.id.getD 0) else SaveCall.create
    | none => SaveCall.create
  if apiFails then
    { call := call, refetch := false, toasts := ["Operation failed"] }
  else
    { call := call, refetch := true
      toasts := [(match call with
        | SaveCall.update _ => "Meeting updated"
        | SaveCall.create => "Meeting scheduled")] }

/-! ### Quick create -/

/-- Draft task prefilled when a day quick add is clicked. -/
def handleCreateTaskForDate (user : Option String) (dateStr : String) : Task :=
  { id := none
    title := ""
    status := "Not Started"
    priority := "Medium"
    assignedTo := user.getD "Unassigned"
    dueDate := dateStr
    companyId := none
    lastUpdatedBy := none
    lastUpdatedAt := none }

/-- Draft meeting prefilled when a day quick add is clicked: the day key is
split and a JS Date for that day is built, setHours with the current hour
plus one and zero minutes is applied, and the date time string is printed
from the getters with literal zero minutes. A current hour of 23 makes
setHours normalize hour 24 into midnight of the next day. Out of range day
keys are outside the model and map to the invalid marker. -/
def handleCreateMeetingForDate (now : LocalDT) (dateStr : String) : Meeting :=
  let dateTime :=
    match parseYMD dateStr with
    | some (y, mo, d) =>
        if isValidDate y mo d then
          let h := now.hour + 1
          if h < 24 then
            fmtDate y mo d ++ "T" ++ pad2 h ++ ":00"
          else
            let (y2, mo2, d2) := nextDay y mo d
            fmtDate y2 mo2 d2 ++ "T" ++ pad2 (h - 24) ++ ":00"
        else "Invalid Date"
    | none => "Invalid Date"
  { id := none
    title := ""
    status := "Scheduled"
    dateTime := dateTime
    meetingLink := none
    lastUpdatedBy := none
    lastUpdatedAt := none }

end UniversalCalendar

namespace MeetingTracker

/-- Substring containment on character lists, the semantics of the JS
string includes call. -/
def containsSub (needle hay : List Char) : Bool :=
  match hay with
  | [] => needle.isEmpty
  | _ :: rest => needle.isPrefixOf hay || containsSub needle rest

/-- Case insensitive title search of the tracker list view. -/
def matchesSearch (search : String) (m : Meeting) : Bool :=
  containsSub search.toLower.toList m.title.toLower.toList

/-- Status chip filter of the tracker list view; the All chip passes all. -/
def matchesStatus (activeFilter : String) (m : Meeting) : Bool :=
  activeFilter == "All" || m.status == activeFilter

/-- Base filter of the memo, search and status chip combined. -/
def baseFiltered (meetings : List Meeting) (search activeFilter : String) :
    List Meeting :=
  meetings.filter (fun m => matchesSearch search m && matchesStatus activeFilter m)

/-- History split predicate of the memo, statuses Completed and Cancelled. -/
def isHistoryStatus (m : Meeting) : Bool :=
  m.status == "Completed" || m.status == "Cancelled"

/-- Sort key of a meeting row, getTime of the parsed date time; the NaN of a
malformed string is modelled as 0. -/
def meetingSortKey (tz : Int) (m : Meeting) : Int :=
  match parseDateTime m.dateTime with
  | some dt => epochOf tz dt
  | none => 0

/-- Ascending comparator of the active section. -/
def ascByDateTime (tz : Int) (a b : Meeting) : Bool :=
  meetingSortKey tz a ≤ meetingSortKey tz b

/-- Descending comparator of the history section. -/
def descByDateTime (tz : Int) (a b : Meeting) : Bool :=
  meetingSortKey tz b ≤ meetingSortKey tz a

/-- The active section of the memo: base filtered rows that are not history,
ascending, soonest first. -/
def activeMeetings (tz : Int) (meetings : List Meeting) (search activeFilter : String) :
    List Meeting :=
  ((baseFiltered meetings search activeFilter).filter
    (fun m => !isHistoryStatus m)).mergeSort (ascByDateTime tz)

/-- The history section of the memo: base filtered rows with a history
status, descending, most recent first. -/
def historyMeetings (tz : Int) (meetings : List Meeting) (search activeFilter : String) :
    List Meeting :=
  ((baseFiltered meetings search activeFilter).filter
    isHistoryStatus).mergeSort (descByDateTime tz)

/-- Branch taken by the tracker save handler; the updated id is the id of
the meeting being edited, possibly absent. -/
inductive TrackerCall where
  | create
  | update (id : Option Nat)
deriving DecidableEq, Repr

/-- Observable outcome of a tracker mutation. -/
structure TrackerResult where
  call : TrackerCall
  refetch : Bool
deriving DecidableEq, Repr

/-- The tracker save handler: an editing meeting present takes the update
branch on its id, otherwise create; a failing write refetches. -/
def handleSave (editingMeeting : Option Meeting) (apiFails : Bool) : TrackerResult :=
  let call :=
    match editingMeeting with
    | some m => TrackerCall.update m.id
    | none => TrackerCall.create
  { call := call, refetch := apiFails }

/-- Observable outcome of a status change, local list included because the
change is applied optimistically. -/
structure StatusChangeResult where
  meetings : List Meeting
  call : TrackerCall
  refetch : Bool
deriving DecidableEq, Repr

/-- The status change handler: patch the row in place optimistically, issue
the update, and refetch when the write fails. -/
def handleStatusChange (meetings : List Meeting) (m : Meeting) (newStatus : String)
    (user : Option String) (nowIso : String) (apiFails : Bool) : StatusChangeResult :=
  let updated :=
    { m with status := newStatus
             lastUpdatedBy := some (user.getD "Unknown")
             lastUpdatedAt := some nowIso }
  { meetings := meetings.map (fun x => if x.id = m.id then updated else x)
    call := TrackerCall.update m.id
    refetch := apiFails }

end MeetingTracker

/-! ## Theorems -/

open UniversalCalendar

/-- Folding a guarded push over a list appends the mapped filtered list. -/
theorem foldl_push_filter_map {α β : Type _} (p : α → Bool) (f : α → β) :
    ∀ (l : List α) (acc : List β),
      l.foldl (fun a t => if p t then a ++ [f t] else a) acc =
        acc ++ (l.filter p).map f
  | [], acc => by simp
  | t :: l, acc => by
      cases h : p t <;>
        simp [List.filter_cons, h, foldl_push_filter_map p f l]

/-- Folding an unconditional push over a list appends the mapped list. -/
theorem foldl_push_map {α β : Type _} (f : α → β) :
    ∀ (l : List α) (acc : List β),
      l.foldl (fun a t => a ++ [f t]) acc = acc ++ l.map f
  | [], acc => by simp
  | t :: l, acc => by
      simp [foldl_push_map f l]

/-- C1: every fetch commits exactly one calendar item per task whose status
is neither Completed nor Done, with grouping key the due date string
verbatim and sort key 0, and exactly one calendar item per meeting; a task
with status Completed or Done yields no item. The committed list is exactly
the image of the filtered task list followed by the image of the meeting
list. -/
theorem fetchData_one_item_per_record (tz : Int) (tasks : List Incial.Task)
    (meetings : List Incial.Meeting) :
    fetchDataItems tz tasks meetings =
      (tasks.filter taskKeep).map taskToItem ++ meetings.map (meetingToItem tz) ∧
    (∀ t : Incial.Task, taskKeep t = true ↔
      (t.status ≠ "Completed" ∧ t.status ≠ "Done")) ∧
    (∀ t : Incial.Task, (taskToItem t).dateStr = t.dueDate ∧
      (taskToItem t).sortTime = 0 ∧ (taskToItem t).type = ItemType.task) ∧
    (∀ m : Incial.Meeting, (meetingToItem tz m).type = ItemType.meeting) := by
  refine ⟨?_, ?_, ?_, ?_⟩
  · unfold fetchDataItems
    rw [foldl_push_filter_map taskKeep taskToItem tasks []]
    rw [foldl_push_map (meetingToItem tz) meetings]
    simp
  · intro t
    simp [taskKeep, Bool.and_eq_true, bne_iff_ne]
  · intro t
    exact ⟨rfl, rfl, rfl⟩
  · intro m
    unfold meetingToItem
    cases parseDateTime m.dateTime <;> rfl

/-- C4: a drop with no dragged item, or onto the own current grouping key of
the dragged item, leaves the item list unchanged, issues no API call,
refetches nothing and shows no toast. -/
theorem handleDrop_own_day_noop :
    (∀ (items : List CalendarItem) (it : CalendarItem) (apiFails : Bool),
      handleDrop items (some it) it.dateStr apiFails =
        { items := items, call := none, refetch := false, toasts := [] }) ∧
    (∀ (items : List CalendarItem) (dateStr : String) (apiFails : Bool),
      handleDrop items none dateStr apiFails =
        { items := items, call := none, refetch := false, toasts := [] }) := by
  constructor
  · intro items it apiFails
    simp [handleDrop]
  · intro items dateStr apiFails
    simp [handleDrop]

/-- Splitting a calendar item list by the two type tags splits its length. -/
theorem length_filter_task_add_meeting (l : List CalendarItem) :
    (l.filter fun i => i.type == ItemType.task).length +
      (l.filter fun i => i.type == ItemType.meeting).length = l.length := by
  induction l with
  | nil => simp
  | cons a l ih =>
      cases h : a.type <;> simp [List.filter_cons, h] <;> omega

/-- C7: the monthly statistics count exactly the items whose grouping key
starts with the zero padded year month key of the displayed month; the
total is the number of such items, the task and meeting fields count the
two type tags among them, and the two type counts add up to the total. -/
theorem monthlyStats_counts_month_prefix (items : List CalendarItem) (y mo : Nat) :
    (monthlyStats items y mo).total =
      items.countP (fun i => i.dateStr.startsWith (monthKey y mo)) ∧
    (monthlyStats items y mo).tasks =
      items.countP (fun i =>
        i.dateStr.startsWith (monthKey y mo) && i.type == ItemType.task) ∧
    (monthlyStats items y mo).meetings =
      items.countP (fun i =>
        i.dateStr.startsWith (monthKey y mo) && i.type == ItemType.meeting) ∧
    (monthlyStats items y mo).tasks + (monthlyStats items y mo).meetings =
      (monthlyStats items y mo).total ∧
    monthKey y mo = toString y ++ "-" ++ pad2 mo := by
  refine ⟨?_, ?_, ?_, ?_, rfl⟩
  · simp [monthlyStats, List.countP_eq_length_filter]
  · simp [monthlyStats, List.countP_eq_length_filter, List.filter_filter,
      Bool.and_comm]
  · simp [monthlyStats, List.countP_eq_length_filter, List.filter_filter,
      Bool.and_comm]
  · exact length_filter_task_add_meeting _

/-- Inversion of the field assembly: a parsed local date time has a valid
civil date and in range clock fields. -/
theorem mkLocalDT_fields {ys ms ds hs mins ss : List Char} {dt : LocalDT}
    (h : mkLocalDT ys ms ds hs mins ss = some dt) :
    isValidDate dt.year dt.month dt.day = true ∧
    dt.hour ≤ 23 ∧ dt.minute ≤ 59 ∧ dt.second ≤ 59 := by
  unfold mkLocalDT at h
  split at h
  · split at h
    · rename_i hcond
      cases h
      simp only [Bool.and_eq_true, decide_eq_true_eq] at hcond
      exact ⟨hcond.1.1.1, hcond.1.1.2, hcond.1.2, hcond.2⟩
    · cases h
  · cases h

/-- Inversion of the date time parser: a parsed local date time has a valid
civil date and in range clock fields. -/
theorem parseDateTime_fields {s : String} {dt : LocalDT}
    (h : parseDateTime s = some dt) :
    isValidDate dt.year dt.month dt.day = true ∧
    dt.hour ≤ 23 ∧ dt.minute ≤ 59 ∧ dt.second ≤ 59 := by
  unfold parseDateTime at h
  split at h
  · split at h
    · exact mkLocalDT_fields h
    · exact mkLocalDT_fields h
    · cases h
  · cases h

/-- The in-year day offset of a valid date is below the year length. -/
theorem inYear_offset_lt {y mo d : Nat} (h : isValidDate y mo d = true) :
    daysBeforeMonth y mo + (d - 1) < daysInYear y := by
  simp only [isValidDate, Bool.and_eq_true, decide_eq_true_eq] at h
  obtain ⟨⟨⟨h1, h2⟩, h3⟩, h4⟩ := h
  cases hl : isLeap y <;>
    interval_cases mo <;>
      simp_all [daysBeforeMonth, daysInMonth, daysInYear] <;> omega

/-- Cumulative month table step: one more month adds the month length. -/
theorem daysBeforeMonth_step {y mo : Nat} (h1 : 1 ≤ mo) (h2 : mo ≤ 11) :
    daysBeforeMonth y (mo + 1) = daysBeforeMonth y mo + daysInMonth y mo := by
  cases hl : isLeap y <;> interval_cases mo <;>
    simp [daysBeforeMonth, daysInMonth, hl]

/-- Cumulative month table is monotone on the twelve months. -/
theorem daysBeforeMonth_mono {y : Nat} {mo mo2 : Nat} (h1 : 1 ≤ mo)
    (h : mo ≤ mo2) (h2 : mo2 ≤ 12) :
    daysBeforeMonth y mo ≤ daysBeforeMonth y mo2 := by
  induction mo2, h using Nat.le_induction with
  | base => exact Nat.le_refl _
  | succ k hk ih =>
      have hstep := daysBeforeMonth_step (y := y) (Nat.le_trans h1 hk)
        (Nat.lt_succ_iff.mp (Nat.lt_of_succ_le h2))
      have := ih (Nat.le_of_succ_le h2)
      omega

/-- Months before a later month end before that month starts. -/
theorem daysBeforeMonth_sep {y : Nat} {mo mo2 : Nat} (h1 : 1 ≤ mo)
    (hlt : mo < mo2) (h2 : mo2 ≤ 12) :
    daysBeforeMonth y mo + daysInMonth y mo ≤ daysBeforeMonth y mo2 := by
  have hstep := daysBeforeMonth_step (y := y) h1 (by omega)
  have hmono := @daysBeforeMonth_mono y (mo + 1) mo2 (by omega) (by omega) h2
  omega

/-- The in-year day offset determines month and day of a valid date. -/
theorem inYear_offset_inj {y mo d mo2 d2 : Nat}
    (h : isValidDate y mo d = true) (h2v : isValidDate y mo2 d2 = true)
    (he : daysBeforeMonth y mo + (d - 1) = daysBeforeMonth y mo2 + (d2 - 1)) :
    mo = mo2 ∧ d = d2 := by
  simp only [isValidDate, Bool.and_eq_true, decide_eq_true_eq] at h h2v
  obtain ⟨⟨⟨a1, a2⟩, a3⟩, a4⟩ := h
  obtain ⟨⟨⟨b1, b2⟩, b3⟩, b4⟩ := h2v
  have hmm : mo = mo2 := by
    rcases Nat.lt_trichotomy mo mo2 with hlt | heq | hlt
    · have := daysBeforeMonth_sep (y := y) a1 hlt b2
      omega
    · exact heq
    · have := daysBeforeMonth_sep (y := y) b1 hlt a2
      omega
  subst hmm
  exact ⟨rfl, by omega⟩

/-- Cumulative year count is monotone. -/
theorem daysBeforeYear_mono {y y2 : Nat} (h : y ≤ y2) :
    daysBeforeYear y ≤ daysBeforeYear y2 := by
  induction y2, h using Nat.le_induction with
  | base => exact Nat.le_refl _
  | succ k _ ih =>
      have : daysBeforeYear (k + 1) = daysBeforeYear k + daysInYear k := rfl
      omega

/-- Years before a later year end before that year starts. -/
theorem daysBeforeYear_sep {y y2 : Nat} (h : y < y2) :
    daysBeforeYear y + daysInYear y ≤ daysBeforeYear y2 := by
  have hmono := daysBeforeYear_mono (show y + 1 ≤ y2 from h)
  have : daysBeforeYear (y + 1) = daysBeforeYear y + daysInYear y := rfl
  omega

/-- The linear day index is injective on valid civil dates. -/
theorem dayNumber_inj {y mo d y2 mo2 d2 : Nat}
    (h : isValidDate y mo d = true) (h2 : isValidDate y2 mo2 d2 = true)
    (he : dayNumber y mo d = dayNumber y2 mo2 d2) :
    y = y2 ∧ mo = mo2 ∧ d = d2 := by
  have b1 := inYear_offset_lt h
  have b2 := inYear_offset_lt h2
  unfold dayNumber at he
  have hy : y = y2 := by
    rcases Nat.lt_trichotomy y y2 with hlt | heq | hlt
    · have := daysBeforeYear_sep hlt
      omega
    · exact heq
    · have := daysBeforeYear_sep hlt
      omega
  subst hy
  have hoff : daysBeforeMonth y mo + (d - 1) = daysBeforeMonth y mo2 + (d2 - 1) := by
    omega
  obtain ⟨hm, hd⟩ := inYear_offset_inj h h2 hoff
  exact ⟨rfl, hm, hd⟩

/-- C2: the calendar item built for a meeting groups under the local
calendar date of the meeting instant and sorts by the instant itself: the
grouping key prints exactly the civil fields of the parsed local date time,
that civil date is valid, the instant shifted by the viewer offset falls
inside the day number of that civil date, and the civil date is the unique
valid date with that day number; the sort key is the epoch value of the
instant. -/
theorem meetingToItem_local_date (tz : Int) (m : Incial.Meeting) (dt : LocalDT)
    (h : parseDateTime m.dateTime = some dt) :
    (meetingToItem tz m).dateStr = fmtDate dt.year dt.month dt.day ∧
    (meetingToItem tz m).sortTime = epochOf tz dt ∧
    isValidDate dt.year dt.month dt.day = true ∧
    (meetingToItem tz m).sortTime + tz * 60 =
      (dayNumber dt.year dt.month dt.day : Int) * 86400 +
        ((dt.hour * 3600 + dt.minute * 60 + dt.second : Nat) : Int) ∧
    dt.hour * 3600 + dt.minute * 60 + dt.second < 86400 ∧
    (∀ y2 mo2 d2 : Nat, isValidDate y2 mo2 d2 = true →
      dayNumber y2 mo2 d2 = dayNumber dt.year dt.month dt.day →
      y2 = dt.year ∧ mo2 = dt.month ∧ d2 = dt.day) := by
  obtain ⟨hv, hh, hmi, hs⟩ := parseDateTime_fields h
  have hclock : dt.hour * 3600 + dt.minute * 60 + dt.second < 86400 := by omega
  refine ⟨?_, ?_, hv, ?_, hclock, ?_⟩
  · simp [meetingToItem, h]
  · simp [meetingToItem, h]
  · have hst : (meetingToItem tz m).sortTime = epochOf tz dt := by
      simp [meetingToItem, h]
    rw [hst]
    unfold epochOf localSeconds
    push_cast
    ring
  · intro y2 mo2 d2 hv2 he
    exact dayNumber_inj hv2 hv he

/-- Witness for C2 at a concrete meeting and the viewer offset 330 east. -/
theorem meetingToItem_local_date_witness :
    parseDateTime
        (Incial.Meeting.mk (some 7) "standup" "Scheduled" "2024-05-10T14:30:00"
          none none none).dateTime =
      some (LocalDT.mk 2024 5 10 14 30 0) ∧
    ((meetingToItem 330
        (Incial.Meeting.mk (some 7) "standup" "Scheduled" "2024-05-10T14:30:00"
          none none none)).dateStr = fmtDate 2024 5 10 ∧
      (meetingToItem 330
        (Incial.Meeting.mk (some 7) "standup" "Scheduled" "2024-05-10T14:30:00"
          none none none)).sortTime = epochOf 330 (LocalDT.mk 2024 5 10 14 30 0) ∧
      isValidDate 2024 5 10 = true ∧
      (meetingToItem 330
        (Incial.Meeting.mk (some 7) "standup" "Scheduled" "2024-05-10T14:30:00"
          none none none)).sortTime + 330 * 60 =
        (dayNumber 2024 5 10 : Int) * 86400 +
          ((14 * 3600 + 30 * 60 + 0 : Nat) : Int) ∧
      14 * 3600 + 30 * 60 + 0 < 86400 ∧
      (∀ y2 mo2 d2 : Nat, isValidDate y2 mo2 d2 = true →
        dayNumber y2 mo2 d2 = dayNumber 2024 5 10 →
        y2 = 2024 ∧ mo2 = 5 ∧ d2 = 10)) :=
  ⟨by rfl,
    meetingToItem_local_date 330
      (Incial.Meeting.mk (some 7) "standup" "Scheduled" "2024-05-10T14:30:00"
        none none none)
      (LocalDT.mk 2024 5 10 14 30 0) (by rfl)⟩

/-- C3: dropping a dragged meeting onto a different valid grid day key sends
an update whose date time string is that day key followed by the original
local hour and minute, zero padded, with zero seconds; the local clock part
survives unchanged because the string is rebuilt by field concatenation. -/
theorem handleDrop_meeting_preserves_time
    (items : List CalendarItem) (it : CalendarItem) (m : Incial.Meeting)
    (dt : LocalDT) (y mo d : Nat) (dateStr : String) (apiFails : Bool)
    (htype : it.type = ItemType.meeting) (hdata : it.data = ItemData.meeting m)
    (hparse : parseDateTime m.dateTime = some dt)
    (hymd : parseYMD dateStr = some (y, mo, d))
    (hkey : dateStr = fmtDate y mo d)
    (hvalid : isValidDate y mo d = true)
    (hne : it.dateStr ≠ dateStr) :
    (handleDrop items (some it) dateStr apiFails).call =
      some (DropCall.meetingUpdate m.id
        (dateStr ++ "T" ++ pad2 dt.hour ++ ":" ++ pad2 dt.minute ++ ":00")) := by
  have hiso : dropMeetingIso dateStr m.dateTime =
      dateStr ++ "T" ++ pad2 dt.hour ++ ":" ++ pad2 dt.minute ++ ":00" := by
    rw [dropMeetingIso, hparse, hymd]
    simp only [hvalid, if_true]
    rw [← hkey]
  cases apiFails <;>
    simp [handleDrop, hne, htype, hdata, hiso, itemDataId, itemDataDateTime]

/-- Witness for C3: a meeting at half past two is dropped from May 10 onto
June 5 and keeps its clock time. -/
theorem handleDrop_meeting_preserves_time_witness :
    (CalendarItem.mk "meeting-7" "2024-05-10" 0 "standup" ItemType.meeting
        (ItemData.meeting (Incial.Meeting.mk (some 7) "standup" "Scheduled"
          "2024-05-10T14:30:00" none none none)) "Scheduled" none).type =
      ItemType.meeting ∧
    parseYMD "2024-06-05" = some (2024, 6, 5) ∧
    "2024-06-05" = fmtDate 2024 6 5 ∧
    isValidDate 2024 6 5 = true ∧
    (CalendarItem.mk "meeting-7" "2024-05-10" 0 "standup" ItemType.meeting
        (ItemData.meeting (Incial.Meeting.mk (some 7) "standup" "Scheduled"
          "2024-05-10T14:30:00" none none none)) "Scheduled" none).dateStr ≠
      "2024-06-05" ∧
    (handleDrop []
        (some (CalendarItem.mk "meeting-7" "2024-05-10" 0 "standup" ItemType.meeting
          (ItemData.meeting (Incial.Meeting.mk (some 7) "standup" "Scheduled"
            "2024-05-10T14:30:00" none none none)) "Scheduled" none))
        "2024-06-05" false).call =
      some (DropCall.meetingUpdate (some 7)
        ("2024-06-05" ++ "T" ++ pad2 14 ++ ":" ++ pad2 30 ++ ":00")) :=
  ⟨rfl, by decide, by decide, by decide, by decide,
    handleDrop_meeting_preserves_time []
      (CalendarItem.mk "meeting-7" "2024-05-10" 0 "standup" ItemType.meeting
        (ItemData.meeting (Incial.Meeting.mk (some 7) "standup" "Scheduled"
          "2024-05-10T14:30:00" none none none)) "Scheduled" none)
      (Incial.Meeting.mk (some 7) "standup" "Scheduled" "2024-05-10T14:30:00"
        none none none)
      (LocalDT.mk 2024 5 10 14 30 0) 2024 6 5 "2024-06-05" false
      rfl rfl (by decide) (by decide) (by decide) (by decide) (by decide)⟩

/-- C5 counterexample: a failing update issued by the calendar page task
save handler does not trigger a refetch, against the claim that every
failing create or update mutation refetches. -/
theorem save_failure_no_refetch_counterexample :
    (handleTaskSave
        (some (Incial.Task.mk (some 3) "report" "Not Started" "Medium" "ana"
          "2024-05-10" none none none)) true).call = SaveCall.update 3 ∧
    (handleTaskSave
        (some (Incial.Task.mk (some 3) "report" "Not Started" "Medium" "ana"
          "2024-05-10" none none none)) true).refetch = false := by
  constructor
  · rfl
  · rfl

/-- C5 amended: on a failing API write, the tracker page save and status
change handlers and the calendar page drop handler trigger a refetch, and
the drop handler also shows the failure toast; the calendar page task and
meeting save handlers show a failure toast but do not refetch. -/
theorem mutation_failure_behaviour
    (eT : Option Incial.Task) (eM e2 : Option Incial.Meeting)
    (ms : List Incial.Meeting) (m : Incial.Meeting) (newStatus : String)
    (user : Option String) (nowIso : String)
    (items : List CalendarItem) (it : CalendarItem) (dateStr : String)
    (hne : it.dateStr ≠ dateStr) :
    ((handleTaskSave eT true).refetch = false ∧
      "Operation failed" ∈ (handleTaskSave eT true).toasts) ∧
    ((handleMeetingSave eM true).refetch = false ∧
      "Operation failed" ∈ (handleMeetingSave eM true).toasts) ∧
    (MeetingTracker.handleSave e2 true).refetch = true ∧
    (MeetingTracker.handleStatusChange ms m newStatus user nowIso true).refetch = true ∧
    ((handleDrop items (some it) dateStr true).refetch = true ∧
      "Failed to move item" ∈ (handleDrop items (some it) dateStr true).toasts) := by
  refine ⟨⟨rfl, ?_⟩, ⟨rfl, ?_⟩, rfl, rfl, ?_⟩
  · simp [handleTaskSave]
  · simp [handleMeetingSave]
  · constructor
    · simp [handleDrop, hne]
    · simp [handleDrop, hne]

/-- Witness for the amended C5 behaviour at concrete inputs. -/
theorem mutation_failure_behaviour_witness :
    (CalendarItem.mk "meeting-7" "2024-05-10" 0 "standup" ItemType.meeting
        (ItemData.meeting (Incial.Meeting.mk (some 7) "standup" "Scheduled"
          "2024-05-10T14:30:00" none none none)) "Scheduled" none).dateStr ≠
      "2024-06-05" ∧
    (((handleTaskSave (none : Option Incial.Task) true).refetch = false ∧
      "Operation failed" ∈ (handleTaskSave (none : Option Incial.Task) true).toasts) ∧
    ((handleMeetingSave (none : Option Incial.Meeting) true).refetch = false ∧
      "Operation failed" ∈ (handleMeetingSave (none : Option Incial.Meeting) true).toasts) ∧
    (MeetingTracker.handleSave (none : Option Incial.Meeting) true).refetch = true ∧
    (MeetingTracker.handleStatusChange []
      (Incial.Meeting.mk (some 7) "standup" "Scheduled" "2024-05-10T14:30:00"
        none none none) "Completed" none "2024-05-11T00:00:00" true).refetch = true ∧
    ((handleDrop []
        (some (CalendarItem.mk "meeting-7" "2024-05-10" 0 "standup" ItemType.meeting
          (ItemData.meeting (Incial.Meeting.mk (some 7) "standup" "Scheduled"
            "2024-05-10T14:30:00" none none none)) "Scheduled" none))
        "2024-06-05" true).refetch = true ∧
      "Failed to move item" ∈ (handleDrop []
        (some (CalendarItem.mk "meeting-7" "2024-05-10" 0 "standup" ItemType.meeting
          (ItemData.meeting (Incial.Meeting.mk (some 7) "standup" "Scheduled"
            "2024-05-10T14:30:00" none none none)) "Scheduled" none))
        "2024-06-05" true).toasts)) :=
  ⟨by decide,
    mutation_failure_behaviour none none none []
      (Incial.Meeting.mk (some 7) "standup" "Scheduled" "2024-05-10T14:30:00"
        none none none) "Completed" none "2024-05-11T00:00:00" []
      (CalendarItem.mk "meeting-7" "2024-05-10" 0 "standup" ItemType.meeting
        (ItemData.meeting (Incial.Meeting.mk (some 7) "standup" "Scheduled"
          "2024-05-10T14:30:00" none none none)) "Scheduled" none)
      "2024-06-05" (by decide)⟩

/-- C6: a month grid cell shows exactly the items whose grouping key equals
the cell day key and whose type passes the active toggles: the cell list is
a permutation of that filter, it is sorted ascending by sort key, the cell
renders only its first four items, and the plus N more indicator appears
exactly when more than four items exist, carrying the exact leftover
count. -/
theorem renderCells_cell_contents (items : List CalendarItem)
    (showTasks showMeetings : Bool) (dateStr : String) :
    (dayCellItems items showTasks showMeetings dateStr).Perm
      (items.filter fun it =>
        it.dateStr == dateStr && typeMatches showTasks showMeetings it) ∧
    (dayCellItems items showTasks showMeetings dateStr).Pairwise
      (fun a b => a.sortTime ≤ b.sortTime) ∧
    (∀ it : CalendarItem,
      (it.dateStr == dateStr && typeMatches showTasks showMeetings it) = true ↔
        (it.dateStr = dateStr ∧
          ((it.type = ItemType.task ∧ showTasks = true) ∨
            (it.type = ItemType.meeting ∧ showMeetings = true)))) ∧
    renderedCellItems items showTasks showMeetings dateStr =
      (dayCellItems items showTasks showMeetings dateStr).take 4 ∧
    (∀ n : Nat, moreCount items showTasks showMeetings dateStr = some n ↔
      ((dayCellItems items showTasks showMeetings dateStr).length = 4 + n ∧
        0 < n)) := by
  refine ⟨List.mergeSort_perm _ _, ?_, ?_, rfl, ?_⟩
  · have hs := @List.sorted_mergeSort CalendarItem bySortTime
      (fun a b c hab hbc => by
        simp only [bySortTime, decide_eq_true_eq] at *
        omega)
      (fun a b => by
        simp only [bySortTime, Bool.or_eq_true, decide_eq_true_eq]
        omega)
      (items.filter fun it =>
        it.dateStr == dateStr && typeMatches showTasks showMeetings it)
    exact hs.imp (fun h => by simpa [bySortTime] using h)
  · intro it
    simp only [typeMatches, Bool.and_eq_true, Bool.or_eq_true, beq_iff_eq]
  · intro n
    unfold moreCount
    split
    · rename_i hlen
      simp only [Option.some_inj]
      omega
    · rename_i hlen
      constructor
      · intro h
        exact Option.noConfusion h
      · rintro ⟨h1, h2⟩
        exfalso
        omega

/-- C8: each save handler issues an update exactly when the entity being
edited carries a record id, and a create otherwise. Record ids handed out
by the API are positive, and the tracker page only ever edits fetched
meetings, which carry an id; both facts enter as hypotheses because the
page branches on JS truthiness of the id and on mere presence of the
editing record respectively. -/
theorem save_branch_decided_by_id
    (eT : Option Incial.Task) (eM e2 : Option Incial.Meeting) (apiFails : Bool)
    (hT : ∀ t i, eT = some t → t.id = some i → 0 < i)
    (hM : ∀ m i, eM = some m → m.id = some i → 0 < i)
    (hTr : ∀ m, e2 = some m → m.id.isSome = true) :
    ((∀ t i, eT = some t → t.id = some i →
        (handleTaskSave eT apiFails).call = SaveCall.update i) ∧
      ((¬∃ t i, eT = some t ∧ t.id = some i) →
        (handleTaskSave eT apiFails).call = SaveCall.create)) ∧
    ((∀ m i, eM = some m → m.id = some i →
        (handleMeetingSave eM apiFails).call = SaveCall.update i) ∧
      ((¬∃ m i, eM = some m ∧ m.id = some i) →
        (handleMeetingSave eM apiFails).call = SaveCall.create)) ∧
    ((∀ m i, e2 = some m → m.id = some i →
        (MeetingTracker.handleSave e2 apiFails).call =
          MeetingTracker.TrackerCall.update (some i)) ∧
      ((¬∃ m i, e2 = some m ∧ m.id = some i) →
        (MeetingTracker.handleSave e2 apiFails).call =
          MeetingTracker.TrackerCall.create)) := by
  refine ⟨⟨?_, ?_⟩, ⟨?_, ?_⟩, ⟨?_, ?_⟩⟩
  · intro t i het hid
    have hi := hT t i het hid
    cases apiFails <;>
      simp [handleTaskSave, het, hid, truthyId, Nat.pos_iff_ne_zero.mp hi]
  · intro hno
    match he : eT with
    | none => cases apiFails <;> simp [handleTaskSave]
    | some t =>
        match hid : t.id with
        | none => cases apiFails <;> simp [handleTaskSave, hid, truthyId]
        | some i => exact absurd ⟨t, i, rfl, hid⟩ hno
  · intro m i het hid
    have hi := hM m i het hid
    cases apiFails <;>
      simp [handleMeetingSave, het, hid, truthyId, Nat.pos_iff_ne_zero.mp hi]
  · intro hno
    match he : eM with
    | none => cases apiFails <;> simp [handleMeetingSave]
    | some m =>
        match hid : m.id with
        | none => cases apiFails <;> simp [handleMeetingSave, hid, truthyId]
        | some i => exact absurd ⟨m, i, rfl, hid⟩ hno
  · intro m i het hid
    simp [MeetingTracker.handleSave, het, hid]
  · intro hno
    match he : e2 with
    | none => simp [MeetingTracker.handleSave]
    | some m =>
        have := hTr m rfl
        match hid : m.id with
        | none => rw [hid] at this; cases this
        | some i => exact absurd ⟨m, i, rfl, hid⟩ hno

/-- Witness for C8: an existing task updates, a fresh meeting creates, and a
tracker row with an id updates. -/
theorem save_branch_decided_by_id_witness :
    ((∀ t i,
        (some (Incial.Task.mk (some 5) "report" "Not Started" "Medium" "ana"
          "2024-05-10" none none none) : Option Incial.Task) = some t →
        t.id = some i → 0 < i) ∧
      (∀ m i, (none : Option Incial.Meeting) = some m → m.id = some i → 0 < i) ∧
      (∀ m, (some (Incial.Meeting.mk (some 3) "standup" "Scheduled"
          "2024-05-10T14:30:00" none none none) : Option Incial.Meeting) = some m →
        m.id.isSome = true)) ∧
    (handleTaskSave
        (some (Incial.Task.mk (some 5) "report" "Not Started" "Medium" "ana"
          "2024-05-10" none none none)) false).call = SaveCall.update 5 ∧
    (handleMeetingSave (none : Option Incial.Meeting) false).call = SaveCall.create ∧
    (MeetingTracker.handleSave
        (some (Incial.Meeting.mk (some 3) "standup" "Scheduled"
          "2024-05-10T14:30:00" none none none)) false).call =
      MeetingTracker.TrackerCall.update (some 3) := by
  have h := save_branch_decided_by_id
    (some (Incial.Task.mk (some 5) "report" "Not Started" "Medium" "ana"
      "2024-05-10" none none none))
    (none : Option Incial.Meeting)
    (some (Incial.Meeting.mk (some 3) "standup" "Scheduled"
      "2024-05-10T14:30:00" none none none)) false
    (by rintro t i ⟨rfl⟩ hid; cases hid; omega)
    (by rintro m i ⟨⟩)
    (by rintro m ⟨rfl⟩; rfl)
  refine ⟨⟨?_, ?_, ?_⟩, ?_, ?_, ?_⟩
  · rintro t i ⟨rfl⟩ hid
    cases hid
    omega
  · rintro m i ⟨⟩
  · rintro m ⟨rfl⟩
    rfl
  · exact h.1.1 _ 5 rfl rfl
  · exact h.2.1.2 (by rintro ⟨m, i, ⟨⟩, hid⟩)
  · exact h.2.2.1 _ 3 rfl rfl

/-- C9 counterexample: quick adding a meeting on June 1 2024 at a current
time of 09:30 produces the draft date time at ten sharp, not the one hour
from now instant 10:30 the claim describes; the handler discards the
current minutes because setHours is called with zero minutes. -/
theorem quick_create_time_counterexample :
    (handleCreateMeetingForDate (LocalDT.mk 2024 6 1 9 30 0) "2024-06-01").dateTime =
      "2024-06-01T10:00" ∧
    (handleCreateMeetingForDate (LocalDT.mk 2024 6 1 9 30 0) "2024-06-01").dateTime ≠
      fmtDate 2024 6 1 ++ "T" ++ pad2 (9 + 1) ++ ":" ++ pad2 30 := by
  constructor
  · rfl
  · decide

/-- C9 amended: the quick add task draft is prefilled with status Not
Started, priority Medium, the current user as assignee and the clicked day
as due date; the quick add meeting draft is prefilled with status Scheduled
and a date time on the clicked day at the next full hour after the current
hour with zero minutes, rolling to midnight of the following day when the
current hour is 23; in particular the June 1 2024 quick add at a current
time of 09:00 yields the 10:00 draft. -/
theorem quick_create_prefill
    (userName : String) (dateStr : String) (y mo d : Nat) (now : LocalDT)
    (hymd : parseYMD dateStr = some (y, mo, d))
    (hvalid : isValidDate y mo d = true)
    (hh : now.hour ≤ 23) :
    (handleCreateTaskForDate (some userName) dateStr).status = "Not Started" ∧
    (handleCreateTaskForDate (some userName) dateStr).priority = "Medium" ∧
    (handleCreateTaskForDate (some userName) dateStr).assignedTo = userName ∧
    (handleCreateTaskForDate (some userName) dateStr).dueDate = dateStr ∧
    (handleCreateTaskForDate (some userName) dateStr).id = none ∧
    (handleCreateMeetingForDate now dateStr).status = "Scheduled" ∧
    (handleCreateMeetingForDate now dateStr).id = none ∧
    (now.hour < 23 → (handleCreateMeetingForDate now dateStr).dateTime =
      fmtDate y mo d ++ "T" ++ pad2 (now.hour + 1) ++ ":00") ∧
    (now.hour = 23 → (handleCreateMeetingForDate now dateStr).dateTime =
      fmtDate (nextDay y mo d).1 (nextDay y mo d).2.1 (nextDay y mo d).2.2 ++
        "T" ++ pad2 0 ++ ":00") := by
  refine ⟨rfl, rfl, rfl, rfl, rfl, rfl, rfl, ?_, ?_⟩
  · intro hlt
    simp only [handleCreateMeetingForDate, hymd, hvalid, if_true]
    rw [if_pos (by omega)]
  · intro heq
    simp only [handleCreateMeetingForDate, hymd, hvalid, if_true]
    rw [if_neg (by omega), heq]

/-- Witness for the amended C9 at the scenario input of the specification:
June 1 2024 with a current time of 09:00. -/
theorem quick_create_prefill_witness :
    parseYMD "2024-06-01" = some (2024, 6, 1) ∧
    isValidDate 2024 6 1 = true ∧
    (LocalDT.mk 2024 6 1 9 0 0).hour ≤ 23 ∧
    ((handleCreateTaskForDate (some "Ana") "2024-06-01").status = "Not Started" ∧
      (handleCreateTaskForDate (some "Ana") "2024-06-01").priority = "Medium" ∧
      (handleCreateTaskForDate (some "Ana") "2024-06-01").assignedTo = "Ana" ∧
      (handleCreateTaskForDate (some "Ana") "2024-06-01").dueDate = "2024-06-01" ∧
      (handleCreateTaskForDate (some "Ana") "2024-06-01").id = none ∧
      (handleCreateMeetingForDate (LocalDT.mk 2024 6 1 9 0 0) "2024-06-01").status =
        "Scheduled" ∧
      (handleCreateMeetingForDate (LocalDT.mk 2024 6 1 9 0 0) "2024-06-01").id = none ∧
      ((LocalDT.mk 2024 6 1 9 0 0).hour < 23 →
        (handleCreateMeetingForDate (LocalDT.mk 2024 6 1 9 0 0) "2024-06-01").dateTime =
          fmtDate 2024 6 1 ++ "T" ++ pad2 ((LocalDT.mk 2024 6 1 9 0 0).hour + 1) ++ ":00") ∧
      ((LocalDT.mk 2024 6 1 9 0 0).hour = 23 →
        (handleCreateMeetingForDate (LocalDT.mk 2024 6 1 9 0 0) "2024-06-01").dateTime =
          fmtDate (nextDay 2024 6 1).1 (nextDay 2024 6 1).2.1 (nextDay 2024 6 1).2.2 ++
            "T" ++ pad2 0 ++ ":00")) ∧
    (handleCreateMeetingForDate (LocalDT.mk 2024 6 1 9 0 0) "2024-06-01").dateTime =
      "2024-06-01T10:00" :=
  ⟨by decide, by decide, by decide,
    quick_create_prefill "Ana" "2024-06-01" 2024 6 1 (LocalDT.mk 2024 6 1 9 0 0)
      (by decide) (by decide) (by decide),
    by rfl⟩

open MeetingTracker

/-- C10: in the tracker list view the meetings that pass the case
insensitive title search and the status chip split into exactly two
sections: together the active and history sections are a permutation of
the filtered list, a filtered meeting is in the active section exactly
when its status is neither Completed nor Cancelled and in the history
section exactly when it is one of the two, the filtered list itself keeps
exactly the meetings passing search and chip, the active section is sorted
ascending by date time key and the history section descending. -/
theorem tracker_sections_partition (tz : Int) (meetings : List Incial.Meeting)
    (search activeFilter : String) :
    (activeMeetings tz meetings search activeFilter ++
      historyMeetings tz meetings search activeFilter).Perm
      (baseFiltered meetings search activeFilter) ∧
    (∀ m : Incial.Meeting,
      m ∈ activeMeetings tz meetings search activeFilter ↔
        (m ∈ baseFiltered meetings search activeFilter ∧
          m.status ≠ "Completed" ∧ m.status ≠ "Cancelled")) ∧
    (∀ m : Incial.Meeting,
      m ∈ historyMeetings tz meetings search activeFilter ↔
        (m ∈ baseFiltered meetings search activeFilter ∧
          (m.status = "Completed" ∨ m.status = "Cancelled"))) ∧
    (∀ m : Incial.Meeting,
      m ∈ baseFiltered meetings search activeFilter ↔
        (m ∈ meetings ∧ matchesSearch search m = true ∧
          (activeFilter = "All" ∨ m.status = activeFilter))) ∧
    (activeMeetings tz meetings search activeFilter).Pairwise
      (fun a b => meetingSortKey tz a ≤ meetingSortKey tz b) ∧
    (historyMeetings tz meetings search activeFilter).Pairwise
      (fun a b => meetingSortKey tz b ≤ meetingSortKey tz a) := by
  refine ⟨?_, ?_, ?_, ?_, ?_, ?_⟩
  · have h1 : (activeMeetings tz meetings search activeFilter).Perm
        ((baseFiltered meetings search activeFilter).filter
          (fun m => !isHistoryStatus m)) := List.mergeSort_perm _ _
    have h2 : (historyMeetings tz meetings search activeFilter).Perm
        ((baseFiltered meetings search activeFilter).filter isHistoryStatus) :=
      List.mergeSort_perm _ _
    have h3 := List.filter_append_perm (fun m => !isHistoryStatus m)
      (baseFiltered meetings search activeFilter)
    have h4 : (baseFiltered meetings search activeFilter).filter
        (fun x => !!(isHistoryStatus x)) =
        (baseFiltered meetings search activeFilter).filter isHistoryStatus :=
      List.filter_congr (fun a _ => Bool.not_not _)
    rw [h4] at h3
    exact (h1.append h2).trans h3
  · intro m
    rw [activeMeetings, List.mem_mergeSort, List.mem_filter]
    simp [isHistoryStatus, not_or]
  · intro m
    rw [historyMeetings, List.mem_mergeSort, List.mem_filter]
    simp [isHistoryStatus]
  · intro m
    rw [baseFiltered, List.mem_filter]
    simp [matchesStatus]
  · have hs := @List.sorted_mergeSort Incial.Meeting (ascByDateTime tz)
      (fun a b c hab hbc => by
        simp only [ascByDateTime, decide_eq_true_eq] at *
        omega)
      (fun a b => by
        simp only [ascByDateTime, Bool.or_eq_true, decide_eq_true_eq]
        omega)
      ((baseFiltered meetings search activeFilter).filter
        (fun m => !isHistoryStatus m))
    exact hs.imp (fun h => by simpa [ascByDateTime] using h)
  · have hs := @List.sorted_mergeSort Incial.Meeting (descByDateTime tz)
      (fun a b c hab hbc => by
        simp only [descByDateTime, decide_eq_true_eq] at *
        omega)
      (fun a b => by
        simp only [descByDateTime, Bool.or_eq_true, decide_eq_true_eq]
        omega)
      ((baseFiltered meetings search activeFilter).filter isHistoryStatus)
    exact hs.imp (fun h => by simpa [descByDateTime] using h)
